import Mathlib

/-!
Verification of `utils/training.py` (continual-learning train/eval loop).

The Python module is shallowly embedded: tensors become lists of entries,
the mutable accuracy bookkeeping becomes explicit state passing, and the
Python exceptions that the control flow can raise (ZeroDivisionError,
IndexError, NameError, AssertionError) become an `Except` monad.  Numeric
work delegated to the external framework (model forward passes, per-batch
correct counts, saliency metrics) is abstracted by oracle data carried in
`Batch` and `EvalOracle`, exactly at the call boundaries the source uses.
-/

namespace Training

/-- Python runtime errors that the orchestration code itself can raise. -/
inductive PyErr where
  | zeroDivision
  | indexError
  | nameError
  | assertionError

deriving DecidableEq, Repr

/-- A tensor entry: either the IEEE `-inf` written by `mask_classes`, or an
ordinary finite value (abstracted as a rational). -/
inductive TVal where
  | negInf : TVal
  | fin : ℚ → TVal

deriving DecidableEq, Repr

/-- The per-batch saliency metrics returned by
`compute_saliency_metrics(sal_preds, inputs[1], metrics=('kld','cc','sim'))`:
one tensor (list of values) per requested metric. -/
structure SalMetrics where
  kld : List ℚ
  cc : List ℚ
  sim : List ℚ

deriving DecidableEq, Repr

/-- One batch of a test loader, abstracting the external numeric work of
`evaluate`'s inner loop: `correct` is the batch's `torch.sum(pred == labels).item()`
on the raw outputs, `total` is `labels.shape[0]`, `correctMask` is the correct
count after `mask_classes`, and `sal` the saliency metrics for the batch. -/
structure Batch where
  correct : ℚ
  total : ℚ
  correctMask : ℚ
  sal : SalMetrics

deriving DecidableEq, Repr

/-- The fields of `ContinualDataset` that `utils/training.py` reads. -/
structure Dataset where
  SETTING : String
  N_CLASSES_PER_TASK : Nat
  N_TASKS : Nat
  test_loaders : List (List Batch)

deriving DecidableEq, Repr

/-- `mask_classes(outputs, dataset, k)`: sets columns `[0, k*N_CLASSES_PER_TASK)`
and `[(k+1)*N_CLASSES_PER_TASK, N_TASKS*N_CLASSES_PER_TASK)` of every row to
`-inf`, leaving the other columns untouched (Python slice assignment clamps
out-of-range bounds, as does the positional map here). -/
def mask_classes (outputs : List (List TVal)) (dataset : Dataset) (k : Nat) :
    List (List TVal) :=
  outputs.map fun row => row.enum.map fun p =>
    if p.1 < k * dataset.N_CLASSES_PER_TASK then TVal.negInf
    else if (k + 1) * dataset.N_CLASSES_PER_TASK ≤ p.1 ∧
        p.1 < dataset.N_TASKS * dataset.N_CLASSES_PER_TASK then TVal.negInf
    else p.2

/-- The fields of `ContinualModel` that `evaluate` reads or writes:
`net.training`, the presence of `saliency_net` and its `training` flag, and
`COMPATIBILITY`. -/
structure EvalModel where
  netTraining : Bool
  hasSaliency : Bool
  salTraining : Bool
  COMPATIBILITY : List String

deriving DecidableEq, Repr

/-- The value `evaluate` returns: a pair `(accs, accs_mask_classes)` normally,
or a triple with `final_sal_scores` appended when the model has a
`saliency_net`. -/
inductive EvalReturn where
  | pair (accs accs_mask_classes : List ℚ)
  | triple (accs accs_mask_classes final_sal_scores : List ℚ)

deriving DecidableEq, Repr

/-- First component (`accs`, the class-il accuracies) of the returned tuple. -/
def EvalReturn.accs : EvalReturn → List ℚ
  | .pair a _ => a
  | .triple a _ _ => a

/-- Second component (`accs_mask_classes`, the task-il accuracies). -/
def EvalReturn.accsMask : EvalReturn → List ℚ
  | .pair _ b => b
  | .triple _ b _ => b

/-- Whether the returned tuple has three components. -/
def EvalReturn.isTriple : EvalReturn → Bool
  | .pair _ _ => false
  | .triple _ _ _ => true

/-- `torch.mean` of a concatenated tensor, as sum over length. -/
def tensorMean (l : List ℚ) : ℚ := l.sum / l.length

/-- Accumulator of `evaluate`'s inner batch loop: `correct`,
`correct_mask_classes`, `total`, and the cross-loader `sal_scores` list. -/
structure LoaderAcc where
  correct : ℚ
  correct_mask_classes : ℚ
  total : ℚ
  sal_scores : List SalMetrics

deriving DecidableEq, Repr

/-- One iteration of `evaluate`'s `for data in test_loader` body: accumulate
`correct` and `total`, append the batch saliency metrics when the model has a
`saliency_net`, and accumulate `correct_mask_classes` when the dataset setting
is class-il. -/
def batchStep (model : EvalModel) (setting : String) (acc : LoaderAcc)
    (b : Batch) : LoaderAcc :=
  { correct := acc.correct + b.correct
    total := acc.total + b.total
    sal_scores := if model.hasSaliency = true then acc.sal_scores ++ [b.sal]
                  else acc.sal_scores
    correct_mask_classes :=
      if setting = "class-il" then acc.correct_mask_classes + b.correctMask
      else acc.correct_mask_classes }

/-- The batch loop over one test loader; `correct`, `correct_mask_classes` and
`total` start at `0.0`, `sal_scores` carries over from earlier loaders. -/
def runLoader (model : EvalModel) (setting : String) (sal_scores : List SalMetrics)
    (batches : List Batch) : LoaderAcc :=
  batches.foldl (batchStep model setting) ⟨0, 0, 0, sal_scores⟩

/-- `final_sal_scores` recomputation (source lines 101-106): for each metric
index of `sal_scores[0]` (always the three metrics kld, cc, sim here),
concatenate that metric over all accumulated batches and take the mean;
`sal_scores[0]` raises IndexError when no batch has been seen. -/
def computeFinalSal (ss : List SalMetrics) : Except PyErr (List ℚ) :=
  match ss with
  | [] => .error .indexError
  | _ :: _ => .ok [tensorMean ((ss.map SalMetrics.kld).flatten),
                   tensorMean ((ss.map SalMetrics.cc).flatten),
                   tensorMean ((ss.map SalMetrics.sim).flatten)]

/-- `evaluate`'s `for k, test_loader in enumerate(dataset.test_loaders)` loop.
`n` is `len(dataset.test_loaders)`; with `last` set, loaders before the final
one are skipped.  A processed loader with `total == 0` raises
ZeroDivisionError at the accuracy division. -/
def evalLoop (model : EvalModel) (setting : String) (n : Nat) (last : Bool) :
    List (List Batch) → Nat → List ℚ → List ℚ → List SalMetrics →
    Option (List ℚ) → Except PyErr (List ℚ × List ℚ × Option (List ℚ))
  | [], _, accs, accs_mask, _, finalSal => .ok (accs, accs_mask, finalSal)
  | test_loader :: rest, k, accs, accs_mask, sal_scores, finalSal =>
    if last = true ∧ k < n - 1 then
      evalLoop model setting n last rest (k + 1) accs accs_mask sal_scores finalSal
    else
      let acc := runLoader model setting sal_scores test_loader
      if acc.total = 0 then .error .zeroDivision
      else
        let accs2 := accs ++
          [if "class-il" ∈ model.COMPATIBILITY then acc.correct / acc.total * 100
           else 0]
        let accs_mask2 := accs_mask ++ [acc.correct_mask_classes / acc.total * 100]
        if model.hasSaliency = true then
          match computeFinalSal acc.sal_scores with
          | .error e => .error e
          | .ok fs =>
            evalLoop model setting n last rest (k + 1) accs2 accs_mask2
              acc.sal_scores (some fs)
        else
          evalLoop model setting n last rest (k + 1) accs2 accs_mask2
            acc.sal_scores finalSal

/-- `evaluate(model, dataset, last)`: saves the `training` flags, switches the
networks to eval mode, runs the loader loop, restores the flags, and returns a
pair or (with a `saliency_net`) a triple; referencing the never-assigned
`final_sal_scores` raises NameError. -/
def evaluate (model : EvalModel) (dataset : Dataset) (last : Bool) :
    Except PyErr (EvalModel × EvalReturn) :=
  let status := model.netTraining
  let m1 : EvalModel := { model with netTraining := false }
  let sal_status := model.salTraining
  let m2 : EvalModel :=
    if m1.hasSaliency = true then { m1 with salTraining := false } else m1
  match evalLoop m2 dataset.SETTING dataset.test_loaders.length last
      dataset.test_loaders 0 [] [] [] none with
  | .error e => .error e
  | .ok (accs, accs_mask_classes, finalSal) =>
    let m3 : EvalModel := { m2 with netTraining := status }
    if m3.hasSaliency = true then
      match finalSal with
      | none => .error .nameError
      | some fs =>
        .ok ({ m3 with salTraining := sal_status },
          .triple accs accs_mask_classes fs)
    else
      .ok (m3, .pair accs accs_mask_classes)

/-- A concrete test batch used to instantiate the `evaluate` theorems. -/
def sampleBatch : Batch := ⟨1, 2, 1, ⟨[2], [4], [6]⟩⟩

/-- A concrete one-task dataset with a single one-batch test loader. -/
def sampleDataset : Dataset := ⟨"class-il", 1, 1, [[sampleBatch]]⟩

/-- A concrete model with a `saliency_net`. -/
def sampleSalModel : EvalModel := ⟨true, true, true, ["class-il"]⟩

/-- A concrete model without a `saliency_net` and without class-il
compatibility. -/
def samplePlainModel : EvalModel := ⟨true, false, true, ["domain-il"]⟩

/-- Observable actions of `train`, in execution order: calls into the model
(`begin_task`/`end_task`), the two kinds of `evaluate` calls, the training
epochs, local-logger calls, wandb calls, and the checkpoint files written
under `args.savecheck`. -/
inductive Event where
  | wandbInit
  | loggerCreate
  | beginTask (t : Nat)
  | evalLast (t : Nat)
  | trainEpoch (t : Nat) (epoch : Nat)
  | endTask (t : Nat)
  | evalAll (t : Nat)
  | loggerLog (t : Nat)
  | logFullacc (t : Nat)
  | wandbLog (t : Nat)
  | saveNet (t : Nat)
  | saveSalNet (t : Nat)
  | saveBuffer (t : Nat)
  | saveArgsPickle (t : Nat)
  | saveResultsPickle (t : Nat)
  | addBwt
  | addForgetting
  | loggerWrite
  | wandbLogDump
  | wandbFinish

deriving DecidableEq, Repr

/-- The `args` flags that steer `train`'s control flow. -/
structure Args where
  nowand : Bool
  disable_log : Bool
  ignore_other_metrics : Bool
  non_verbose : Bool
  debug_mode : Bool
  savecheck : Bool
  model : String

deriving DecidableEq, Repr

/-- The aspects of the `ContinualModel` that `train`'s branching reads:
presence of the optional `saliency_net`, `begin_task`, `end_task`, whether
`'buffer_size' in model.args`, and `model.args.n_epochs`. -/
structure TrainModel where
  hasSaliency : Bool
  hasBeginTask : Bool
  hasEndTask : Bool
  hasBufferSize : Bool
  n_epochs : Nat

deriving DecidableEq, Repr

/-- Oracle for the results of the two `evaluate` call sites inside `train`
(the external dataset state evolves between tasks, so each call is indexed by
the task counter `t`): `evalLast t` is `evaluate(model, dataset, last=True)`
before task `t`, `evalAll t` is `evaluate(model, dataset)` after task `t`. -/
structure EvalOracle where
  evalLast : Nat → EvalReturn
  evalAll : Nat → EvalReturn

/-- The mutable state `train` builds up: the trace of observable actions and
the two accuracy accumulators `results` and `results_mask_classes`. -/
structure TState where
  events : List Event
  results : List (List ℚ)
  results_mask_classes : List (List ℚ)

deriving DecidableEq, Repr

/-- Source lines 154-158: before task `t` (when `t` is truthy and
`ignore_other_metrics` is off) evaluate the most recent task with `last=True`
and extend `results[t-1]` with the class-il accuracies, and
`results_mask_classes[t-1]` with the task-il ones when the setting is
class-il. -/
def taskEvalPhase (args : Args) (ds : Dataset) (oracle : EvalOracle) (t : Nat)
    (st : TState) : TState :=
  if t ≠ 0 ∧ args.ignore_other_metrics = false then
    let accs := oracle.evalLast t
    let st1 : TState :=
      { st with
          events := st.events ++ [Event.evalLast t],
          results := st.results.set (t - 1)
            (st.results.getD (t - 1) [] ++ accs.accs) }
    if ds.SETTING = "class-il" then
      { st1 with
          results_mask_classes := st1.results_mask_classes.set (t - 1)
            (st1.results_mask_classes.getD (t - 1) [] ++ accs.accsMask) }
    else st1
  else st

/-- The body of `train`'s `for t in range(dataset.N_TASKS)` loop (source
lines 148-249): optional `begin_task`, the pre-task evaluation phase, the
epoch loop (entirely skipped when `args.model == 'joint'`), optional
`end_task`, the full evaluation with its two appends, conditional local and
remote logging, and the checkpoint block.  The checkpoint block's results
pickle evaluates `logger.dump()`, and `logger` is only ever assigned when
`args.disable_log` is false, so that combination raises NameError. -/
def taskStep (model : TrainModel) (ds : Dataset) (args : Args)
    (oracle : EvalOracle) (t : Nat) (st : TState) : Except PyErr TState :=
  let st1 : TState := { st with events := st.events ++
      (if model.hasBeginTask = true then [Event.beginTask t] else []) }
  let st2 := taskEvalPhase args ds oracle t st1
  let st3 : TState := { st2 with events := st2.events ++
      (if args.model = "joint" then []
       else (List.range model.n_epochs).map (Event.trainEpoch t)) }
  let st4 : TState := { st3 with events := st3.events ++
      (if model.hasEndTask = true then [Event.endTask t] else []) }
  let accs := oracle.evalAll t
  let st5 : TState :=
    { st4 with
        events := st4.events ++ [Event.evalAll t],
        results := st4.results ++ [accs.accs],
        results_mask_classes := st4.results_mask_classes ++ [accs.accsMask] }
  let st6 : TState := { st5 with events := st5.events ++
      (if args.disable_log = false then [Event.loggerLog t, Event.logFullacc t]
       else []) }
  let st7 : TState := { st6 with events := st6.events ++
      (if args.nowand = false then [Event.wandbLog t] else []) }
  if args.savecheck = true then
    let st8 : TState := { st7 with events := st7.events ++
        ([Event.saveNet t] ++
         (if model.hasSaliency = true then [Event.saveSalNet t] else []) ++
         (if model.hasBufferSize = true then [Event.saveBuffer t] else []) ++
         [Event.saveArgsPickle t]) }
    if args.disable_log = true then .error .nameError
    else .ok { st8 with events := st8.events ++ [Event.saveResultsPickle t] }
  else .ok st7

/-- `train(model, dataset, args)` (source lines 116-263): the wandb assertion
and `wandb.init`, the conditional `Logger` creation, the task loop, and the
final bwt/forgetting, `logger.write`, wandb dump and `wandb.finish` calls.
`wandbInstalled` says whether the `import wandb` at module load succeeded. -/
def train (model : TrainModel) (ds : Dataset) (args : Args)
    (oracle : EvalOracle) (wandbInstalled : Bool) : Except PyErr TState :=
  if args.nowand = false ∧ wandbInstalled = false then .error .assertionError
  else
    let st0 : TState :=
      { events := (if args.nowand = false then [Event.wandbInit] else []) ++
          (if args.disable_log = false then [Event.loggerCreate] else []),
        results := [], results_mask_classes := [] }
    match (List.range ds.N_TASKS).foldlM
        (fun st t => taskStep model ds args oracle t st) st0 with
    | .error e => .error e
    | .ok stN =>
      let stA : TState :=
        { stN with events := stN.events ++
            (if args.disable_log = false ∧ args.ignore_other_metrics = false then
              [Event.addBwt, Event.addForgetting] else []) }
      let stB : TState :=
        { stA with events := stA.events ++
            (if args.disable_log = false then
              [Event.loggerWrite] ++
                (if args.nowand = false then [Event.wandbLogDump] else [])
             else []) }
      .ok { stB with events := stB.events ++
          (if args.nowand = false then [Event.wandbFinish] else []) }

/-- The events of `train`'s initialization, before the task loop. -/
def initEvents (args : Args) : List Event :=
  (if args.nowand = false then [Event.wandbInit] else []) ++
  (if args.disable_log = false then [Event.loggerCreate] else [])

/-- The events one task contributes to the trace. -/
def taskEvents (model : TrainModel) (args : Args) (t : Nat) : List Event :=
  (if model.hasBeginTask = true then [Event.beginTask t] else []) ++
  (if t ≠ 0 ∧ args.ignore_other_metrics = false then [Event.evalLast t] else []) ++
  (if args.model = "joint" then []
   else (List.range model.n_epochs).map (Event.trainEpoch t)) ++
  (if model.hasEndTask = true then [Event.endTask t] else []) ++
  [Event.evalAll t] ++
  (if args.disable_log = false then [Event.loggerLog t, Event.logFullacc t]
   else []) ++
  (if args.nowand = false then [Event.wandbLog t] else []) ++
  (if args.savecheck = true then
    [Event.saveNet t] ++
    (if model.hasSaliency = true then [Event.saveSalNet t] else []) ++
    (if model.hasBufferSize = true then [Event.saveBuffer t] else []) ++
    [Event.saveArgsPickle t, Event.saveResultsPickle t]
   else [])

/-- The events of `train`'s finalization, after the task loop. -/
def tailEvents (args : Args) : List Event :=
  (if args.disable_log = false ∧ args.ignore_other_metrics = false then
    [Event.addBwt, Event.addForgetting] else []) ++
  (if args.disable_log = false then
    [Event.loggerWrite] ++
      (if args.nowand = false then [Event.wandbLogDump] else [])
   else []) ++
  (if args.nowand = false then [Event.wandbFinish] else [])

/-- How one task transforms the `results` accumulator. -/
def resultsStepAcc (args : Args) (oracle : EvalOracle) (t : Nat)
    (rs : List (List ℚ)) : List (List ℚ) :=
  (if t ≠ 0 ∧ args.ignore_other_metrics = false then
    rs.set (t - 1) (rs.getD (t - 1) [] ++ (oracle.evalLast t).accs)
   else rs) ++ [(oracle.evalAll t).accs]

/-- How one task transforms the `results_mask_classes` accumulator. -/
def resultsStepMask (ds : Dataset) (args : Args) (oracle : EvalOracle) (t : Nat)
    (rs : List (List ℚ)) : List (List ℚ) :=
  (if t ≠ 0 ∧ args.ignore_other_metrics = false ∧ ds.SETTING = "class-il" then
    rs.set (t - 1) (rs.getD (t - 1) [] ++ (oracle.evalLast t).accsMask)
   else rs) ++ [(oracle.evalAll t).accsMask]

/-- The `results` list after the whole task loop. -/
def finalAccs (ds : Dataset) (args : Args) (oracle : EvalOracle) :
    List (List ℚ) :=
  (List.range ds.N_TASKS).foldl (fun rs t => resultsStepAcc args oracle t rs) []

/-- The `results_mask_classes` list after the whole task loop. -/
def finalMask (ds : Dataset) (args : Args) (oracle : EvalOracle) :
    List (List ℚ) :=
  (List.range ds.N_TASKS).foldl (fun rs t => resultsStepMask ds args oracle t rs)
    []

deriving instance DecidableEq for Except

/-- A concrete model for the `train` theorems: no saliency net, has
`begin_task`/`end_task`, no `buffer_size`, one epoch. -/
def sampleTrainModel : TrainModel := ⟨false, true, true, false, 1⟩

/-- A concrete two-task dataset for the `train` theorems. -/
def sampleTrainDataset : Dataset := ⟨"class-il", 1, 2, []⟩

/-- A concrete oracle for the two `evaluate` call sites of `train`. -/
def sampleOracle : EvalOracle :=
  ⟨fun _ => .pair [1] [2], fun _ => .pair [3] [4]⟩

/-- Concrete args: wandb on, logging on, other metrics on, no checkpoints. -/
def sampleArgs : Args := ⟨false, false, false, false, false, false, "er"⟩

/-- Concrete args triggering the checkpoint bug: `savecheck` together with
`disable_log`. -/
def sampleBugArgs : Args := ⟨true, true, false, false, false, true, "er"⟩

/-- The state `train` produces on the concrete sample inputs. -/
def sampleTrainState : TState :=
  ⟨[Event.wandbInit, Event.loggerCreate,
    Event.beginTask 0, Event.trainEpoch 0 0, Event.endTask 0, Event.evalAll 0,
    Event.loggerLog 0, Event.logFullacc 0, Event.wandbLog 0,
    Event.beginTask 1, Event.evalLast 1, Event.trainEpoch 1 0, Event.endTask 1,
    Event.evalAll 1, Event.loggerLog 1, Event.logFullacc 1, Event.wandbLog 1,
    Event.addBwt, Event.addForgetting, Event.loggerWrite, Event.wandbLogDump,
    Event.wandbFinish],
   [[3, 1], [3]], [[4, 2], [4]]⟩

/-- A concrete state entering task 1: one result entry per list. -/
def samplePreState : TState := ⟨[], [[5]], [[6]]⟩

/-- The state `taskStep` produces from `samplePreState` at task 1. -/
def samplePostState : TState :=
  ⟨[Event.beginTask 1, Event.evalLast 1, Event.trainEpoch 1 0, Event.endTask 1,
    Event.evalAll 1, Event.loggerLog 1, Event.logFullacc 1, Event.wandbLog 1],
   [[5, 1], [3]], [[6, 2], [4]]⟩

lemma mask_classes_row (outputs : List (List TVal)) (ds : Dataset) (k i : Nat)
    (hi : i < outputs.length) :
    (mask_classes outputs ds k).getD i [] =
      (outputs.getD i []).enum.map (fun p =>
        if p.1 < k * ds.N_CLASSES_PER_TASK then TVal.negInf
        else if (k + 1) * ds.N_CLASSES_PER_TASK ≤ p.1 ∧
            p.1 < ds.N_TASKS * ds.N_CLASSES_PER_TASK then TVal.negInf
        else p.2) := by
  unfold mask_classes
  rw [List.getD_eq_getElem _ _ (by simpa using hi), List.getElem_map,
    List.getD_eq_getElem _ _ hi]

lemma mask_classes_entry (outputs : List (List TVal)) (ds : Dataset) (k i j : Nat)
    (hi : i < outputs.length) (hj : j < (outputs.getD i []).length) :
    ((mask_classes outputs ds k).getD i []).getD j (TVal.fin 0) =
      (if j < k * ds.N_CLASSES_PER_TASK then TVal.negInf
       else if (k + 1) * ds.N_CLASSES_PER_TASK ≤ j ∧
           j < ds.N_TASKS * ds.N_CLASSES_PER_TASK then TVal.negInf
       else (outputs.getD i []).getD j (TVal.fin 0)) := by
  rw [mask_classes_row outputs ds k i hi]
  rw [List.getD_eq_getElem _ _ (by simpa using hj), List.getElem_map,
    List.getElem_enum, List.getD_eq_getElem _ _ hj]

/-- C1: after `mask_classes(outputs, dataset, k)` with `k < N_TASKS`, on any
row of a tensor with at least `N_TASKS * N_CLASSES_PER_TASK` columns, every
entry in columns `[0, k*N_CLASSES_PER_TASK)` and
`[(k+1)*N_CLASSES_PER_TASK, N_TASKS*N_CLASSES_PER_TASK)` is `-inf`, and every
entry in columns `[k*N_CLASSES_PER_TASK, (k+1)*N_CLASSES_PER_TASK)` is
unchanged. -/
theorem mask_classes_masks_other_tasks (outputs : List (List TVal)) (ds : Dataset)
    (k i : Nat) (hk : k < ds.N_TASKS) (hi : i < outputs.length)
    (hcols : ds.N_TASKS * ds.N_CLASSES_PER_TASK ≤ (outputs.getD i []).length) :
    (∀ j, j < k * ds.N_CLASSES_PER_TASK →
      ((mask_classes outputs ds k).getD i []).getD j (TVal.fin 0) = TVal.negInf) ∧
    (∀ j, (k + 1) * ds.N_CLASSES_PER_TASK ≤ j →
      j < ds.N_TASKS * ds.N_CLASSES_PER_TASK →
      ((mask_classes outputs ds k).getD i []).getD j (TVal.fin 0) = TVal.negInf) ∧
    (∀ j, k * ds.N_CLASSES_PER_TASK ≤ j → j < (k + 1) * ds.N_CLASSES_PER_TASK →
      ((mask_classes outputs ds k).getD i []).getD j (TVal.fin 0) =
        (outputs.getD i []).getD j (TVal.fin 0)) := by
  refine ⟨fun j hj => ?_, fun j hj1 hj2 => ?_, fun j hj1 hj2 => ?_⟩
  · have hjlen : j < (outputs.getD i []).length := by
      have h1 : k * ds.N_CLASSES_PER_TASK ≤ ds.N_TASKS * ds.N_CLASSES_PER_TASK :=
        Nat.mul_le_mul_right _ (Nat.le_of_lt hk)
      omega
    rw [mask_classes_entry outputs ds k i j hi hjlen]
    simp [hj]
  · have hjlen : j < (outputs.getD i []).length := by omega
    rw [mask_classes_entry outputs ds k i j hi hjlen]
    have hnot : ¬ j < k * ds.N_CLASSES_PER_TASK := by
      have : k * ds.N_CLASSES_PER_TASK ≤ (k + 1) * ds.N_CLASSES_PER_TASK :=
        Nat.mul_le_mul_right _ (Nat.le_succ k)
      omega
    simp [hnot, hj1, hj2]
  · have hjlen : j < (outputs.getD i []).length := by
      have h1 : (k + 1) * ds.N_CLASSES_PER_TASK ≤ ds.N_TASKS * ds.N_CLASSES_PER_TASK :=
        Nat.mul_le_mul_right _ hk
      omega
    rw [mask_classes_entry outputs ds k i j hi hjlen]
    have hnot1 : ¬ j < k * ds.N_CLASSES_PER_TASK := by omega
    have hnot2 : ¬ ((k + 1) * ds.N_CLASSES_PER_TASK ≤ j ∧
        j < ds.N_TASKS * ds.N_CLASSES_PER_TASK) := by omega
    simp [hnot1, hnot2]

/-- Witness for the `mask_classes` theorem at a concrete input: a 1×4 tensor,
2 tasks of 2 classes each, current task `k = 0`. -/
theorem mask_classes_masks_other_tasks_witness :
    (0 < 2 ∧ 0 < 1 ∧ 2 * 2 ≤ 4) ∧
    (((mask_classes [[TVal.fin 1, TVal.fin 2, TVal.fin 3, TVal.fin 4]]
        ⟨"class-il", 2, 2, []⟩ 0).getD 0 []).getD 2 (TVal.fin 0) = TVal.negInf ∧
     ((mask_classes [[TVal.fin 1, TVal.fin 2, TVal.fin 3, TVal.fin 4]]
        ⟨"class-il", 2, 2, []⟩ 0).getD 0 []).getD 1 (TVal.fin 0) = TVal.fin 2) := by
  refine ⟨by decide, ?_, ?_⟩
  · exact (mask_classes_masks_other_tasks
      [[TVal.fin 1, TVal.fin 2, TVal.fin 3, TVal.fin 4]]
      ⟨"class-il", 2, 2, []⟩ 0 0 (by decide) (by decide) (by decide)).2.1 2
      (by decide) (by decide)
  · exact (mask_classes_masks_other_tasks
      [[TVal.fin 1, TVal.fin 2, TVal.fin 3, TVal.fin 4]]
      ⟨"class-il", 2, 2, []⟩ 0 0 (by decide) (by decide) (by decide)).2.2 1
      (by decide) (by decide)

lemma evalLoop_length_balance (model : EvalModel) (setting : String) (n : Nat)
    (last : Bool) :
    ∀ (loaders : List (List Batch)) (k : Nat) (accs accs_mask : List ℚ)
      (ss : List SalMetrics) (fs : Option (List ℚ)) (a b : List ℚ)
      (f : Option (List ℚ)),
      evalLoop model setting n last loaders k accs accs_mask ss fs = .ok (a, b, f) →
      a.length + accs_mask.length = b.length + accs.length := by
  intro loaders
  induction loaders with
  | nil =>
    intro k accs accs_mask ss fs a b f h
    simp only [evalLoop, Except.ok.injEq, Prod.mk.injEq] at h
    obtain ⟨h1, h2, _⟩ := h
    subst h1; subst h2
    omega
  | cons loader rest ih =>
    intro k accs accs_mask ss fs a b f h
    simp only [evalLoop] at h
    split at h
    · exact ih (k + 1) accs accs_mask ss fs a b f h
    · split at h
      · exact absurd h (by simp)
      · split at h
        · split at h
          · exact absurd h (by simp)
          · have hb := ih _ _ _ _ _ _ _ _ h
            simp only [List.length_append, List.length_cons, List.length_nil] at hb ⊢
            omega
        · have hb := ih _ _ _ _ _ _ _ _ h
          simp only [List.length_append, List.length_cons, List.length_nil] at hb ⊢
          omega

lemma evalLoop_length_last_false (model : EvalModel) (setting : String) (n : Nat) :
    ∀ (loaders : List (List Batch)) (k : Nat) (accs accs_mask : List ℚ)
      (ss : List SalMetrics) (fs : Option (List ℚ)) (a b : List ℚ)
      (f : Option (List ℚ)),
      evalLoop model setting n false loaders k accs accs_mask ss fs = .ok (a, b, f) →
      a.length = accs.length + loaders.length := by
  intro loaders
  induction loaders with
  | nil =>
    intro k accs accs_mask ss fs a b f h
    simp only [evalLoop, Except.ok.injEq, Prod.mk.injEq] at h
    obtain ⟨h1, _, _⟩ := h
    subst h1
    simp
  | cons loader rest ih =>
    intro k accs accs_mask ss fs a b f h
    simp only [evalLoop, Bool.false_eq_true, false_and, if_false] at h
    split at h
    · exact absurd h (by simp)
    · split at h
      · split at h
        · exact absurd h (by simp)
        · have hb := ih _ _ _ _ _ _ _ _ h
          simp only [List.length_append, List.length_cons, List.length_nil] at hb ⊢
          omega
      · have hb := ih _ _ _ _ _ _ _ _ h
        simp only [List.length_append, List.length_cons, List.length_nil] at hb ⊢
        omega

lemma evalLoop_length_last_true (model : EvalModel) (setting : String) (n : Nat) :
    ∀ (loaders : List (List Batch)) (k : Nat) (accs accs_mask : List ℚ)
      (ss : List SalMetrics) (fs : Option (List ℚ)) (a b : List ℚ)
      (f : Option (List ℚ)),
      k + loaders.length = n → loaders ≠ [] →
      evalLoop model setting n true loaders k accs accs_mask ss fs = .ok (a, b, f) →
      a.length = accs.length + 1 := by
  intro loaders
  induction loaders with
  | nil =>
    intro k accs accs_mask ss fs a b f _ hne _
    exact absurd rfl hne
  | cons loader rest ih =>
    intro k accs accs_mask ss fs a b f hn _ h
    simp only [evalLoop, true_and] at h
    split at h
    · have hrest : rest ≠ [] := by
        intro hcon
        subst hcon
        simp only [List.length_cons, List.length_nil] at hn
        omega
      have hn' : (k + 1) + rest.length = n := by
        simp only [List.length_cons] at hn
        omega
      exact ih (k + 1) accs accs_mask ss fs a b f hn' hrest h
    · have hrest : rest = [] := by
        rename_i hnot
        have : ¬ k < n - 1 := hnot
        simp only [List.length_cons] at hn
        cases rest with
        | nil => rfl
        | cons x xs => simp only [List.length_cons] at hn; omega
      subst hrest
      split at h
      · exact absurd h (by simp)
      · split at h
        · split at h
          · exact absurd h (by simp)
          · simp only [evalLoop, Except.ok.injEq, Prod.mk.injEq] at h
            obtain ⟨h1, _, _⟩ := h
            subst h1
            simp
        · simp only [evalLoop, Except.ok.injEq, Prod.mk.injEq] at h
          obtain ⟨h1, _, _⟩ := h
          subst h1
          simp

lemma evalLoop_accs_zero (model : EvalModel) (setting : String) (n : Nat)
    (last : Bool) :
    ∀ (loaders : List (List Batch)) (k : Nat) (accs accs_mask : List ℚ)
      (ss : List SalMetrics) (fs : Option (List ℚ)) (a b : List ℚ)
      (f : Option (List ℚ)),
      evalLoop model setting n last loaders k accs accs_mask ss fs = .ok (a, b, f) →
      "class-il" ∉ model.COMPATIBILITY →
      (∀ x ∈ accs, x = 0) → ∀ x ∈ a, x = 0 := by
  intro loaders
  induction loaders with
  | nil =>
    intro k accs accs_mask ss fs a b f h hc hz
    simp only [evalLoop, Except.ok.injEq, Prod.mk.injEq] at h
    obtain ⟨h1, _, _⟩ := h
    subst h1
    exact hz
  | cons loader rest ih =>
    intro k accs accs_mask ss fs a b f h hc hz
    simp only [evalLoop] at h
    rw [if_neg hc] at h
    split at h
    · exact ih (k + 1) accs accs_mask ss fs a b f h hc hz
    · have hz' : ∀ x ∈ accs ++ [(0 : ℚ)], x = 0 := by
        intro x hx
        rcases List.mem_append.mp hx with hx | hx
        · exact hz x hx
        · simp only [List.mem_singleton] at hx
          exact hx
      split at h
      · exact absurd h (by simp)
      · split at h
        · split at h
          · exact absurd h (by simp)
          · exact ih _ _ _ _ _ _ _ _ h hc hz'
        · exact ih _ _ _ _ _ _ _ _ h hc hz'

/-- C8: `evaluate` restores the training mode of the evaluated networks: when
it returns, `model.net.training` equals its value before the call, and
likewise `model.saliency_net.training` when the model has a `saliency_net`. -/
theorem evaluate_restores_training_mode (model : EvalModel) (ds : Dataset)
    (last : Bool) (m' : EvalModel) (r : EvalReturn)
    (h : evaluate model ds last = .ok (m', r)) :
    m'.netTraining = model.netTraining ∧
    (model.hasSaliency = true → m'.salTraining = model.salTraining) := by
  cases hS : model.hasSaliency with
  | false =>
    simp only [evaluate, hS, Bool.false_eq_true, if_false] at h
    split at h
    · exact absurd h (by simp)
    · simp only [Except.ok.injEq, Prod.mk.injEq] at h
      obtain ⟨hm, _⟩ := h
      subst hm
      exact ⟨rfl, by simp [hS]⟩
  | true =>
    simp only [evaluate, hS, if_true] at h
    split at h
    · exact absurd h (by simp)
    · split at h
      · exact absurd h (by simp)
      · simp only [Except.ok.injEq, Prod.mk.injEq] at h
        obtain ⟨hm, _⟩ := h
        subst hm
        exact ⟨rfl, fun _ => rfl⟩

/-- C9: when `evaluate` returns, the two accuracy lists have equal length;
with `last=False` that length is `len(dataset.test_loaders)`, with `last=True`
and non-empty loaders it is exactly 1; and when `'class-il'` is not in
`model.COMPATIBILITY` every class-il entry is 0. -/
theorem evaluate_accs_lengths (model : EvalModel) (ds : Dataset) (last : Bool)
    (m' : EvalModel) (r : EvalReturn)
    (h : evaluate model ds last = .ok (m', r)) :
    r.accs.length = r.accsMask.length ∧
    (last = false → r.accs.length = ds.test_loaders.length) ∧
    (last = true → ds.test_loaders ≠ [] → r.accs.length = 1) ∧
    ("class-il" ∉ model.COMPATIBILITY → ∀ x ∈ r.accs, x = 0) := by
  cases hS : model.hasSaliency with
  | false =>
    simp only [evaluate, hS, Bool.false_eq_true, if_false] at h
    split at h
    · exact absurd h (by simp)
    · rename_i res accs mask fs hE
      simp only [Except.ok.injEq, Prod.mk.injEq] at h
      obtain ⟨_, hr⟩ := h
      subst hr
      refine ⟨?_, ?_, ?_, ?_⟩
      · have := evalLoop_length_balance _ _ _ _ _ _ _ _ _ _ _ _ _ hE
        simpa [EvalReturn.accs, EvalReturn.accsMask] using this
      · intro hlast
        subst hlast
        have := evalLoop_length_last_false _ _ _ _ _ _ _ _ _ _ _ _ hE
        simpa [EvalReturn.accs] using this
      · intro hlast hne
        subst hlast
        have := evalLoop_length_last_true _ _ _ _ _ _ _ _ _ _ _ _
          (by simp) hne hE
        simpa [EvalReturn.accs] using this
      · intro hc
        have := evalLoop_accs_zero _ _ _ _ _ _ _ _ _ _ _ _ _ hE hc
          (by intro x hx; simp at hx)
        simpa [EvalReturn.accs] using this
  | true =>
    simp only [evaluate, hS, if_true] at h
    split at h
    · exact absurd h (by simp)
    · rename_i res accs mask fs hE
      split at h
      · exact absurd h (by simp)
      · rename_i flist hfs
        simp only [Except.ok.injEq, Prod.mk.injEq] at h
        obtain ⟨_, hr⟩ := h
        subst hr
        refine ⟨?_, ?_, ?_, ?_⟩
        · have := evalLoop_length_balance _ _ _ _ _ _ _ _ _ _ _ _ _ hE
          simpa [EvalReturn.accs, EvalReturn.accsMask] using this
        · intro hlast
          subst hlast
          have := evalLoop_length_last_false _ _ _ _ _ _ _ _ _ _ _ _ hE
          simpa [EvalReturn.accs] using this
        · intro hlast hne
          subst hlast
          have := evalLoop_length_last_true _ _ _ _ _ _ _ _ _ _ _ _
            (by simp) hne hE
          simpa [EvalReturn.accs] using this
        · intro hc
          have := evalLoop_accs_zero _ _ _ _ _ _ _ _ _ _ _ _ _ hE hc
            (by intro x hx; simp at hx)
          simpa [EvalReturn.accs] using this

/-- C10: `evaluate` returns a 3-tuple exactly when the model has a
`saliency_net`, and a 2-tuple otherwise. -/
theorem evaluate_tuple_arity (model : EvalModel) (ds : Dataset) (last : Bool)
    (m' : EvalModel) (r : EvalReturn)
    (h : evaluate model ds last = .ok (m', r)) :
    r.isTriple = model.hasSaliency := by
  cases hS : model.hasSaliency with
  | false =>
    simp only [evaluate, hS, Bool.false_eq_true, if_false] at h
    split at h
    · exact absurd h (by simp)
    · simp only [Except.ok.injEq, Prod.mk.injEq] at h
      obtain ⟨_, hr⟩ := h
      subst hr
      rfl
  | true =>
    simp only [evaluate, hS, if_true] at h
    split at h
    · exact absurd h (by simp)
    · split at h
      · exact absurd h (by simp)
      · simp only [Except.ok.injEq, Prod.mk.injEq] at h
        obtain ⟨_, hr⟩ := h
        subst hr
        rfl

/-- Witness: `evaluate` on the concrete saliency model returns and leaves both
training flags as they were. -/
theorem evaluate_restores_training_mode_witness :
    evaluate sampleSalModel sampleDataset false =
      .ok (sampleSalModel, .triple [50] [50] [2, 4, 6]) ∧
    (sampleSalModel.netTraining = sampleSalModel.netTraining ∧
      (sampleSalModel.hasSaliency = true →
        sampleSalModel.salTraining = sampleSalModel.salTraining)) := by
  constructor
  · norm_num [evaluate, evalLoop, runLoader, batchStep, computeFinalSal,
      tensorMean, sampleSalModel, sampleDataset, sampleBatch]
  · exact evaluate_restores_training_mode sampleSalModel sampleDataset false
      sampleSalModel (.triple [50] [50] [2, 4, 6])
      (by norm_num [evaluate, evalLoop, runLoader, batchStep, computeFinalSal,
        tensorMean, sampleSalModel, sampleDataset, sampleBatch])

/-- Witness: the length and zero-entry facts of `evaluate_accs_lengths` hold
on the concrete non-class-il model. -/
theorem evaluate_accs_lengths_witness :
    evaluate samplePlainModel sampleDataset false =
      .ok (samplePlainModel, .pair [0] [50]) ∧
    ((EvalReturn.pair [0] [50]).accs.length =
        (EvalReturn.pair [0] [50]).accsMask.length ∧
      (false = false →
        (EvalReturn.pair [0] [50]).accs.length =
          sampleDataset.test_loaders.length) ∧
      (false = true → sampleDataset.test_loaders ≠ [] →
        (EvalReturn.pair [0] [50]).accs.length = 1) ∧
      ("class-il" ∉ samplePlainModel.COMPATIBILITY →
        ∀ x ∈ (EvalReturn.pair [0] [50]).accs, x = 0)) := by
  constructor
  · norm_num [evaluate, evalLoop, runLoader, batchStep, computeFinalSal,
      tensorMean, samplePlainModel, sampleDataset, sampleBatch]
    decide
  · exact evaluate_accs_lengths samplePlainModel sampleDataset false
      samplePlainModel (.pair [0] [50])
      (by norm_num [evaluate, evalLoop, runLoader, batchStep, computeFinalSal,
          tensorMean, samplePlainModel, sampleDataset, sampleBatch]
          decide)

/-- Witness: on the concrete saliency model `evaluate` returns a triple. -/
theorem evaluate_tuple_arity_witness :
    evaluate sampleSalModel sampleDataset false =
      .ok (sampleSalModel, .triple [50] [50] [2, 4, 6]) ∧
    (EvalReturn.triple [50] [50] [2, 4, 6]).isTriple = sampleSalModel.hasSaliency := by
  constructor
  · norm_num [evaluate, evalLoop, runLoader, batchStep, computeFinalSal,
      tensorMean, sampleSalModel, sampleDataset, sampleBatch]
  · exact evaluate_tuple_arity sampleSalModel sampleDataset false
      sampleSalModel (.triple [50] [50] [2, 4, 6])
      (by norm_num [evaluate, evalLoop, runLoader, batchStep, computeFinalSal,
        tensorMean, sampleSalModel, sampleDataset, sampleBatch])

lemma taskEvalPhase_events (args : Args) (ds : Dataset) (oracle : EvalOracle)
    (t : Nat) (st : TState) :
    (taskEvalPhase args ds oracle t st).events =
      st.events ++ (if t ≠ 0 ∧ args.ignore_other_metrics = false then
        [Event.evalLast t] else []) := by
  unfold taskEvalPhase
  split_ifs <;> simp

lemma taskEvalPhase_results (args : Args) (ds : Dataset) (oracle : EvalOracle)
    (t : Nat) (st : TState) :
    (taskEvalPhase args ds oracle t st).results =
      (if t ≠ 0 ∧ args.ignore_other_metrics = false then
        st.results.set (t - 1)
          (st.results.getD (t - 1) [] ++ (oracle.evalLast t).accs)
       else st.results) := by
  unfold taskEvalPhase
  split_ifs <;> simp

lemma taskEvalPhase_mask (args : Args) (ds : Dataset) (oracle : EvalOracle)
    (t : Nat) (st : TState) :
    (taskEvalPhase args ds oracle t st).results_mask_classes =
      (if t ≠ 0 ∧ args.ignore_other_metrics = false ∧ ds.SETTING = "class-il" then
        st.results_mask_classes.set (t - 1)
          (st.results_mask_classes.getD (t - 1) [] ++ (oracle.evalLast t).accsMask)
       else st.results_mask_classes) := by
  unfold taskEvalPhase
  split_ifs with h1 h2 h3 <;> simp_all

lemma taskStep_eq_ok (model : TrainModel) (ds : Dataset) (args : Args)
    (oracle : EvalOracle) (t : Nat) (st st' : TState)
    (h : taskStep model ds args oracle t st = .ok st') :
    st' = ⟨st.events ++ taskEvents model args t,
           resultsStepAcc args oracle t st.results,
           resultsStepMask ds args oracle t st.results_mask_classes⟩ := by
  simp only [taskStep] at h
  split at h
  · rename_i hsc
    split at h
    · exact absurd h (by simp)
    · rename_i hdl
      simp only [Except.ok.injEq] at h
      subst h
      simp only [TState.mk.injEq]
      refine ⟨?_, ?_, ?_⟩
      · simp [taskEvalPhase_events, taskEvents, hsc, List.append_assoc]
      · simp [taskEvalPhase_results, resultsStepAcc]
      · simp [taskEvalPhase_mask, resultsStepMask]
  · rename_i hsc
    simp only [Except.ok.injEq] at h
    subst h
    simp only [TState.mk.injEq]
    refine ⟨?_, ?_, ?_⟩
    · simp [taskEvalPhase_events, taskEvents, hsc, List.append_assoc]
    · simp [taskEvalPhase_results, resultsStepAcc]
    · simp [taskEvalPhase_mask, resultsStepMask]

lemma foldlM_taskStep_eq_ok (model : TrainModel) (ds : Dataset) (args : Args)
    (oracle : EvalOracle) :
    ∀ (ts : List Nat) (st st' : TState),
      ts.foldlM (fun st t => taskStep model ds args oracle t st) st = .ok st' →
      st' = ⟨st.events ++ ts.flatMap (taskEvents model args),
             ts.foldl (fun rs t => resultsStepAcc args oracle t rs) st.results,
             ts.foldl (fun rs t => resultsStepMask ds args oracle t rs)
               st.results_mask_classes⟩ := by
  intro ts
  induction ts with
  | nil =>
    intro st st' h
    simp only [List.foldlM_nil, pure, Except.pure] at h
    cases h
    simp
  | cons t ts ih =>
    intro st st' h
    replace h : (taskStep model ds args oracle t st >>= fun s =>
        ts.foldlM (fun st t => taskStep model ds args oracle t st) s) =
        .ok st' := h
    cases hstep : taskStep model ds args oracle t st with
    | error e =>
      rw [hstep] at h
      exact absurd h (by simp [Bind.bind, Except.bind])
    | ok st1 =>
      rw [hstep] at h
      replace h : ts.foldlM (fun st t => taskStep model ds args oracle t st)
          st1 = .ok st' := h
      have h1 := taskStep_eq_ok model ds args oracle t st st1 hstep
      subst h1
      have h2 := ih _ _ h
      subst h2
      simp [List.append_assoc]

lemma train_eq_ok (model : TrainModel) (ds : Dataset) (args : Args)
    (oracle : EvalOracle) (wi : Bool) (st : TState)
    (h : train model ds args oracle wi = .ok st) :
    st = ⟨initEvents args ++
            (List.range ds.N_TASKS).flatMap (taskEvents model args) ++
            tailEvents args,
          finalAccs ds args oracle, finalMask ds args oracle⟩ := by
  simp only [train] at h
  split at h
  · exact absurd h (by simp)
  · split at h
    · exact absurd h (by simp)
    · rename_i stN hF
      have hN := foldlM_taskStep_eq_ok model ds args oracle _ _ _ hF
      subst hN
      simp only [Except.ok.injEq] at h
      subst h
      simp only [TState.mk.injEq]
      refine ⟨?_, rfl, rfl⟩
      simp [initEvents, tailEvents, finalAccs, finalMask, List.append_assoc]

lemma getD_append_len {α : Type} (l : List α) (x d : α) (n : Nat)
    (h : l.length = n) : (l ++ [x]).getD n d = x := by
  subst h
  rw [List.getD_eq_getElem?_getD, List.getElem?_append_right (Nat.le_refl _)]
  simp

lemma getD_set_self {α : Type} (l : List α) (n : Nat) (a d : α)
    (h : n < l.length) : (l.set n a).getD n d = a := by
  rw [List.getD_eq_getElem?_getD, List.getElem?_set_self h]
  rfl

lemma getD_set_ne {α : Type} (l : List α) (n m : Nat) (a d : α)
    (h : n ≠ m) : (l.set n a).getD m d = l.getD m d := by
  rw [List.getD_eq_getElem?_getD, List.getElem?_set_ne h,
    ← List.getD_eq_getElem?_getD]

lemma foldl_resultsShape_length (f g : Nat → List ℚ) (c : Nat → Prop)
    [DecidablePred c] :
    ∀ (ts : List Nat) (rs : List (List ℚ)),
      (ts.foldl (fun rs t =>
        (if c t then rs.set (t - 1) (rs.getD (t - 1) [] ++ g t) else rs) ++
          [f t]) rs).length = rs.length + ts.length := by
  intro ts
  induction ts with
  | nil => intro rs; simp
  | cons t ts ih =>
    intro rs
    simp only [List.foldl_cons]
    rw [ih]
    split_ifs <;> simp <;> omega

lemma foldl_resultsShape_prefix (f g : Nat → List ℚ) (c : Nat → Prop)
    [DecidablePred c] :
    ∀ (n t : Nat), t < n →
      ∃ ext, ((List.range n).foldl (fun rs t =>
        (if c t then rs.set (t - 1) (rs.getD (t - 1) [] ++ g t) else rs) ++
          [f t]) []).getD t [] = f t ++ ext := by
  intro n
  induction n with
  | zero => intro t ht; omega
  | succ n ih =>
    intro t ht
    rw [List.range_succ, List.foldl_append, List.foldl_cons, List.foldl_nil]
    have hRlen : ((List.range n).foldl (fun rs t =>
        (if c t then rs.set (t - 1) (rs.getD (t - 1) [] ++ g t) else rs) ++
          [f t]) []).length = n := by
      rw [foldl_resultsShape_length]
      simp
    set R := (List.range n).foldl (fun rs t =>
        (if c t then rs.set (t - 1) (rs.getD (t - 1) [] ++ g t) else rs) ++
          [f t]) [] with hRdef
    have hR'len : (if c n then R.set (n - 1) (R.getD (n - 1) [] ++ g n)
        else R).length = n := by
      split_ifs <;> simp [hRlen]
    by_cases hts : t = n
    · subst hts
      refine ⟨[], ?_⟩
      rw [List.append_nil]
      exact getD_append_len _ _ _ _ hR'len
    · have htn : t < n := by omega
      rw [List.getD_append _ _ _ _ (by rw [hR'len]; exact htn)]
      by_cases hcn : c n
      · rw [if_pos hcn]
        by_cases htm : t = n - 1
        · subst htm
          rw [getD_set_self _ _ _ _ (by rw [hRlen]; omega)]
          obtain ⟨ext, hext⟩ := ih (n - 1) (by omega)
          exact ⟨ext ++ g n, by rw [hext, List.append_assoc]⟩
        · rw [getD_set_ne _ _ _ _ _ (fun hcon => htm hcon.symm)]
          exact ih t htn
      · rw [if_neg hcn]
        exact ih t htn

lemma finalAccs_length (ds : Dataset) (args : Args) (oracle : EvalOracle) :
    (finalAccs ds args oracle).length = ds.N_TASKS := by
  have := foldl_resultsShape_length (fun t => (oracle.evalAll t).accs)
    (fun t => (oracle.evalLast t).accs)
    (fun t => t ≠ 0 ∧ args.ignore_other_metrics = false)
    (List.range ds.N_TASKS) []
  simpa [finalAccs, resultsStepAcc] using this

lemma finalMask_length (ds : Dataset) (args : Args) (oracle : EvalOracle) :
    (finalMask ds args oracle).length = ds.N_TASKS := by
  have := foldl_resultsShape_length (fun t => (oracle.evalAll t).accsMask)
    (fun t => (oracle.evalLast t).accsMask)
    (fun t => t ≠ 0 ∧ args.ignore_other_metrics = false ∧
      ds.SETTING = "class-il") (List.range ds.N_TASKS) []
  simpa [finalMask, resultsStepMask] using this

lemma finalAccs_prefix (ds : Dataset) (args : Args) (oracle : EvalOracle)
    (t : Nat) (ht : t < ds.N_TASKS) :
    ∃ ext, (finalAccs ds args oracle).getD t [] =
      (oracle.evalAll t).accs ++ ext := by
  have := foldl_resultsShape_prefix (fun t => (oracle.evalAll t).accs)
    (fun t => (oracle.evalLast t).accs)
    (fun t => t ≠ 0 ∧ args.ignore_other_metrics = false) ds.N_TASKS t ht
  simpa [finalAccs, resultsStepAcc] using this

lemma finalMask_prefix (ds : Dataset) (args : Args) (oracle : EvalOracle)
    (t : Nat) (ht : t < ds.N_TASKS) :
    ∃ ext, (finalMask ds args oracle).getD t [] =
      (oracle.evalAll t).accsMask ++ ext := by
  have := foldl_resultsShape_prefix (fun t => (oracle.evalAll t).accsMask)
    (fun t => (oracle.evalLast t).accsMask)
    (fun t => t ≠ 0 ∧ args.ignore_other_metrics = false ∧
      ds.SETTING = "class-il") ds.N_TASKS t ht
  simpa [finalMask, resultsStepMask] using this

/-- C3: `train` processes exactly `N_TASKS` tasks strictly sequentially and
in order: the trace is the initialization events, then the per-task event
blocks for tasks `0, 1, ..., N_TASKS-1` in that order, then the finalization
events; `results` and `results_mask_classes` end with exactly `N_TASKS`
entries, and the entry at index `t` is the list appended when task `t`
finished (later tasks only extend it on the right). -/
theorem train_sequential_tasks (model : TrainModel) (ds : Dataset)
    (args : Args) (oracle : EvalOracle) (wi : Bool) (st : TState)
    (h : train model ds args oracle wi = .ok st) :
    st.events = initEvents args ++
        (List.range ds.N_TASKS).flatMap (taskEvents model args) ++
        tailEvents args ∧
    st.results.length = ds.N_TASKS ∧
    st.results_mask_classes.length = ds.N_TASKS ∧
    (∀ t, t < ds.N_TASKS →
      ∃ ext, st.results.getD t [] = (oracle.evalAll t).accs ++ ext) ∧
    (∀ t, t < ds.N_TASKS →
      ∃ ext, st.results_mask_classes.getD t [] =
        (oracle.evalAll t).accsMask ++ ext) := by
  have hd := train_eq_ok model ds args oracle wi st h
  subst hd
  exact ⟨rfl, finalAccs_length ds args oracle, finalMask_length ds args oracle,
    fun t ht => finalAccs_prefix ds args oracle t ht,
    fun t ht => finalMask_prefix ds args oracle t ht⟩

/-- C2: for a task index `t >= 1` with `ignore_other_metrics` off, the task
body emits the `last=True` evaluation before any training epoch of task `t`,
extends `results[t-1]` with the returned class-il accuracies (and
`results_mask_classes[t-1]` with the task-il ones when the setting is
class-il), and leaves the earlier entries `results[0..t-2]` unmodified at
that point. -/
theorem train_pre_task_evaluation (model : TrainModel) (ds : Dataset)
    (args : Args) (oracle : EvalOracle) (t : Nat) (st st' : TState)
    (ht : 1 ≤ t) (hig : args.ignore_other_metrics = false)
    (hlen : t ≤ st.results.length)
    (hlenm : t ≤ st.results_mask_classes.length)
    (hok : taskStep model ds args oracle t st = .ok st') :
    (∃ pre post, st'.events = st.events ++ pre ++ [Event.evalLast t] ++ post ∧
      ∀ ep, Event.trainEpoch t ep ∉ pre) ∧
    (taskEvalPhase args ds oracle t st).results.getD (t - 1) [] =
      st.results.getD (t - 1) [] ++ (oracle.evalLast t).accs ∧
    (∀ j, j < t - 1 →
      (taskEvalPhase args ds oracle t st).results.getD j [] =
        st.results.getD j []) ∧
    (ds.SETTING = "class-il" →
      (taskEvalPhase args ds oracle t st).results_mask_classes.getD (t - 1) [] =
        st.results_mask_classes.getD (t - 1) [] ++
          (oracle.evalLast t).accsMask) ∧
    (∀ j, j < t - 1 →
      (taskEvalPhase args ds oracle t st).results_mask_classes.getD j [] =
        st.results_mask_classes.getD j []) := by
  have hcond : t ≠ 0 ∧ args.ignore_other_metrics = false := ⟨by omega, hig⟩
  refine ⟨?_, ?_, ?_, ?_, ?_⟩
  · have hev := taskStep_eq_ok model ds args oracle t st st' hok
    refine ⟨(if model.hasBeginTask = true then [Event.beginTask t] else []),
      (if args.model = "joint" then []
       else (List.range model.n_epochs).map (Event.trainEpoch t)) ++
      (if model.hasEndTask = true then [Event.endTask t] else []) ++
      [Event.evalAll t] ++
      (if args.disable_log = false then [Event.loggerLog t, Event.logFullacc t]
       else []) ++
      (if args.nowand = false then [Event.wandbLog t] else []) ++
      (if args.savecheck = true then
        [Event.saveNet t] ++
        (if model.hasSaliency = true then [Event.saveSalNet t] else []) ++
        (if model.hasBufferSize = true then [Event.saveBuffer t] else []) ++
        [Event.saveArgsPickle t, Event.saveResultsPickle t]
       else []), ?_, ?_⟩
    · rw [hev]
      simp only [taskEvents, if_pos hcond, List.append_assoc]
    · intro ep
      split_ifs <;> simp
  · rw [taskEvalPhase_results, if_pos hcond]
    exact getD_set_self _ _ _ _ (by omega)
  · intro j hj
    rw [taskEvalPhase_results, if_pos hcond]
    exact getD_set_ne _ _ _ _ _ (by omega)
  · intro hsetting
    rw [taskEvalPhase_mask, if_pos ⟨hcond.1, hig, hsetting⟩]
    exact getD_set_self _ _ _ _ (by omega)
  · intro j hj
    rw [taskEvalPhase_mask]
    split_ifs with hc
    · exact getD_set_ne _ _ _ _ _ (by omega)
    · rfl

lemma mem_taskEvents_shape (model : TrainModel) (args : Args) (t : Nat)
    (e : Event) (he : e ∈ taskEvents model args t) :
    e = Event.beginTask t ∨ e = Event.evalLast t ∨
    (∃ ep, e = Event.trainEpoch t ep) ∨ e = Event.endTask t ∨
    e = Event.evalAll t ∨ e = Event.loggerLog t ∨ e = Event.logFullacc t ∨
    e = Event.wandbLog t ∨ e = Event.saveNet t ∨ e = Event.saveSalNet t ∨
    e = Event.saveBuffer t ∨ e = Event.saveArgsPickle t ∨
    e = Event.saveResultsPickle t := by
  unfold taskEvents at he
  simp only [List.mem_append, List.mem_ite_nil_right, List.mem_ite_nil_left,
    List.mem_map, List.mem_singleton, List.mem_cons, List.not_mem_nil,
    List.mem_range, or_false] at he
  aesop

lemma taskEvents_no_global_events (model : TrainModel) (args : Args) (t : Nat) :
    Event.wandbInit ∉ taskEvents model args t ∧
    Event.loggerCreate ∉ taskEvents model args t ∧
    Event.addBwt ∉ taskEvents model args t ∧
    Event.addForgetting ∉ taskEvents model args t ∧
    Event.loggerWrite ∉ taskEvents model args t ∧
    Event.wandbLogDump ∉ taskEvents model args t ∧
    Event.wandbFinish ∉ taskEvents model args t := by
  refine ⟨?_, ?_, ?_, ?_, ?_, ?_, ?_⟩ <;>
    · intro he
      rcases mem_taskEvents_shape model args t _ he with
        h | h | ⟨ep, h⟩ | h | h | h | h | h | h | h | h | h | h <;> simp at h

lemma mem_initEvents_iff (args : Args) (e : Event) :
    e ∈ initEvents args ↔
      ((e = Event.wandbInit ∧ args.nowand = false) ∨
       (e = Event.loggerCreate ∧ args.disable_log = false)) := by
  simp only [initEvents, List.mem_append, List.mem_ite_nil_right,
    List.mem_singleton]
  tauto

lemma mem_tailEvents_iff (args : Args) (e : Event) :
    e ∈ tailEvents args ↔
      (((e = Event.addBwt ∨ e = Event.addForgetting) ∧
          args.disable_log = false ∧ args.ignore_other_metrics = false) ∨
       (e = Event.loggerWrite ∧ args.disable_log = false) ∨
       (e = Event.wandbLogDump ∧ args.disable_log = false ∧
          args.nowand = false) ∨
       (e = Event.wandbFinish ∧ args.nowand = false)) := by
  simp only [tailEvents, List.mem_append, List.mem_ite_nil_right,
    List.mem_singleton, List.mem_cons, List.not_mem_nil, or_false]
  tauto

lemma loggerLog_mem_taskEvents (model : TrainModel) (args : Args) (u t : Nat) :
    Event.loggerLog t ∈ taskEvents model args u ↔
      (t = u ∧ args.disable_log = false) := by
  simp only [taskEvents, List.mem_append, List.mem_ite_nil_right,
    List.mem_ite_nil_left, List.mem_map, List.mem_singleton, List.mem_cons,
    List.not_mem_nil, or_false, List.mem_range]
  aesop

lemma logFullacc_mem_taskEvents (model : TrainModel) (args : Args) (u t : Nat) :
    Event.logFullacc t ∈ taskEvents model args u ↔
      (t = u ∧ args.disable_log = false) := by
  simp only [taskEvents, List.mem_append, List.mem_ite_nil_right,
    List.mem_ite_nil_left, List.mem_map, List.mem_singleton, List.mem_cons,
    List.not_mem_nil, or_false, List.mem_range]
  aesop

lemma wandbLog_mem_taskEvents (model : TrainModel) (args : Args) (u t : Nat) :
    Event.wandbLog t ∈ taskEvents model args u ↔
      (t = u ∧ args.nowand = false) := by
  simp only [taskEvents, List.mem_append, List.mem_ite_nil_right,
    List.mem_ite_nil_left, List.mem_map, List.mem_singleton, List.mem_cons,
    List.not_mem_nil, or_false, List.mem_range]
  aesop

lemma count_tailEvents_addBwt (args : Args) :
    (tailEvents args).count Event.addBwt =
      (if args.disable_log = false ∧ args.ignore_other_metrics = false then 1
       else 0) := by
  unfold tailEvents
  split_ifs <;> decide

lemma count_tailEvents_addForgetting (args : Args) :
    (tailEvents args).count Event.addForgetting =
      (if args.disable_log = false ∧ args.ignore_other_metrics = false then 1
       else 0) := by
  unfold tailEvents
  split_ifs <;> decide

lemma count_tailEvents_loggerWrite (args : Args) :
    (tailEvents args).count Event.loggerWrite =
      (if args.disable_log = false then 1 else 0) := by
  unfold tailEvents
  split_ifs <;> decide

lemma count_tailEvents_wandbFinish (args : Args) :
    (tailEvents args).count Event.wandbFinish =
      (if args.nowand = false then 1 else 0) := by
  unfold tailEvents
  split_ifs <;> decide

/-- C4: `train` records the backward-transfer and forgetting metrics exactly
once, in the finalization segment after all per-task blocks, if and only if
both `args.disable_log` and `args.ignore_other_metrics` are false. -/
theorem train_bwt_forgetting_once (model : TrainModel) (ds : Dataset)
    (args : Args) (oracle : EvalOracle) (wi : Bool) (st : TState)
    (h : train model ds args oracle wi = .ok st) :
    st.events = (initEvents args ++
        (List.range ds.N_TASKS).flatMap (taskEvents model args)) ++
        tailEvents args ∧
    (initEvents args ++
        (List.range ds.N_TASKS).flatMap (taskEvents model args)).count
      Event.addBwt = 0 ∧
    (initEvents args ++
        (List.range ds.N_TASKS).flatMap (taskEvents model args)).count
      Event.addForgetting = 0 ∧
    (tailEvents args).count Event.addBwt =
      (if args.disable_log = false ∧ args.ignore_other_metrics = false then 1
       else 0) ∧
    (tailEvents args).count Event.addForgetting =
      (if args.disable_log = false ∧ args.ignore_other_metrics = false then 1
       else 0) := by
  have hd := train_eq_ok model ds args oracle wi st h
  refine ⟨by rw [hd], ?_, ?_, count_tailEvents_addBwt args,
    count_tailEvents_addForgetting args⟩
  · rw [List.count_append]
    have h1 : (initEvents args).count Event.addBwt = 0 :=
      List.count_eq_zero.mpr (by simp [mem_initEvents_iff])
    have h2 : ((List.range ds.N_TASKS).flatMap
        (taskEvents model args)).count Event.addBwt = 0 := by
      refine List.count_eq_zero.mpr ?_
      intro hmem
      rw [List.mem_flatMap] at hmem
      obtain ⟨u, _, hm⟩ := hmem
      exact (taskEvents_no_global_events model args u).2.2.1 hm
    rw [h1, h2]
  · rw [List.count_append]
    have h1 : (initEvents args).count Event.addForgetting = 0 :=
      List.count_eq_zero.mpr (by simp [mem_initEvents_iff])
    have h2 : ((List.range ds.N_TASKS).flatMap
        (taskEvents model args)).count Event.addForgetting = 0 := by
      refine List.count_eq_zero.mpr ?_
      intro hmem
      rw [List.mem_flatMap] at hmem
      obtain ⟨u, _, hm⟩ := hmem
      exact (taskEvents_no_global_events model args u).2.2.2.1 hm
    rw [h1, h2]

/-- C6: when `train` returns, the local tracker is used iff `disable_log` is
false (Logger created, `logger.log`/`log_fullacc` present for every task,
`logger.write` exactly once), the remote tracker iff `nowand` is false
(`wandb.init` first and once, `wandb.log` for every task, `wandb.finish` last
and once); and with `nowand` false but wandb not installed, `train` fails the
assertion (returning no trace at all). -/
theorem train_logging_behavior (model : TrainModel) (ds : Dataset)
    (args : Args) (oracle : EvalOracle) (wi : Bool) (st : TState)
    (h : train model ds args oracle wi = .ok st) :
    (Event.loggerCreate ∈ st.events ↔ args.disable_log = false) ∧
    (∀ t, t < ds.N_TASKS →
      ((Event.loggerLog t ∈ st.events ↔ args.disable_log = false) ∧
       (Event.logFullacc t ∈ st.events ↔ args.disable_log = false) ∧
       (Event.wandbLog t ∈ st.events ↔ args.nowand = false))) ∧
    st.events.count Event.loggerWrite =
      (if args.disable_log = false then 1 else 0) ∧
    (args.nowand = false →
      ∃ l, st.events = Event.wandbInit :: l ∧ Event.wandbInit ∉ l) ∧
    (args.nowand = true → Event.wandbInit ∉ st.events) ∧
    st.events.count Event.wandbFinish =
      (if args.nowand = false then 1 else 0) ∧
    (args.nowand = false →
      ∃ l, st.events = l ++ [Event.wandbFinish] ∧ Event.wandbFinish ∉ l) ∧
    (∀ (model' : TrainModel) (ds' : Dataset) (args' : Args)
        (oracle' : EvalOracle), args'.nowand = false →
      train model' ds' args' oracle' false = .error .assertionError) := by
  have hd := train_eq_ok model ds args oracle wi st h
  subst hd
  have hng := taskEvents_no_global_events model args
  refine ⟨?_, ?_, ?_, ?_, ?_, ?_, ?_, ?_⟩
  · constructor
    · intro hmem
      rcases List.mem_append.mp hmem with hmem | hmem
      · rcases List.mem_append.mp hmem with hmem | hmem
        · rcases (mem_initEvents_iff args _).mp hmem with ⟨he, _⟩ | ⟨_, hdl⟩
          · exact absurd he (by simp)
          · exact hdl
        · obtain ⟨u, _, hm⟩ := List.mem_flatMap.mp hmem
          exact absurd hm (hng u).2.1
      · rcases (mem_tailEvents_iff args _).mp hmem with
          ⟨he, _⟩ | ⟨he, _⟩ | ⟨he, _⟩ | ⟨he, _⟩ <;> simp at he
    · intro hdl
      exact List.mem_append.mpr (Or.inl (List.mem_append.mpr (Or.inl
        ((mem_initEvents_iff args _).mpr (Or.inr ⟨rfl, hdl⟩)))))
  · intro t ht
    refine ⟨?_, ?_, ?_⟩
    · constructor
      · intro hmem
        rcases List.mem_append.mp hmem with hmem | hmem
        · rcases List.mem_append.mp hmem with hmem | hmem
          · rcases (mem_initEvents_iff args _).mp hmem with ⟨he, _⟩ | ⟨he, _⟩ <;>
              simp at he
          · obtain ⟨u, _, hm⟩ := List.mem_flatMap.mp hmem
            exact ((loggerLog_mem_taskEvents model args u t).mp hm).2
        · rcases (mem_tailEvents_iff args _).mp hmem with
            ⟨he, _⟩ | ⟨he, _⟩ | ⟨he, _⟩ | ⟨he, _⟩ <;> simp at he
      · intro hdl
        refine List.mem_append.mpr (Or.inl (List.mem_append.mpr (Or.inr ?_)))
        exact List.mem_flatMap.mpr ⟨t, List.mem_range.mpr ht,
          (loggerLog_mem_taskEvents model args t t).mpr ⟨rfl, hdl⟩⟩
    · constructor
      · intro hmem
        rcases List.mem_append.mp hmem with hmem | hmem
        · rcases List.mem_append.mp hmem with hmem | hmem
          · rcases (mem_initEvents_iff args _).mp hmem with ⟨he, _⟩ | ⟨he, _⟩ <;>
              simp at he
          · obtain ⟨u, _, hm⟩ := List.mem_flatMap.mp hmem
            exact ((logFullacc_mem_taskEvents model args u t).mp hm).2
        · rcases (mem_tailEvents_iff args _).mp hmem with
            ⟨he, _⟩ | ⟨he, _⟩ | ⟨he, _⟩ | ⟨he, _⟩ <;> simp at he
      · intro hdl
        refine List.mem_append.mpr (Or.inl (List.mem_append.mpr (Or.inr ?_)))
        exact List.mem_flatMap.mpr ⟨t, List.mem_range.mpr ht,
          (logFullacc_mem_taskEvents model args t t).mpr ⟨rfl, hdl⟩⟩
    · constructor
      · intro hmem
        rcases List.mem_append.mp hmem with hmem | hmem
        · rcases List.mem_append.mp hmem with hmem | hmem
          · rcases (mem_initEvents_iff args _).mp hmem with ⟨he, _⟩ | ⟨he, _⟩ <;>
              simp at he
          · obtain ⟨u, _, hm⟩ := List.mem_flatMap.mp hmem
            exact ((wandbLog_mem_taskEvents model args u t).mp hm).2
        · rcases (mem_tailEvents_iff args _).mp hmem with
            ⟨he, _⟩ | ⟨he, _⟩ | ⟨he, _⟩ | ⟨he, _⟩ <;> simp at he
      · intro hnw
        refine List.mem_append.mpr (Or.inl (List.mem_append.mpr (Or.inr ?_)))
        exact List.mem_flatMap.mpr ⟨t, List.mem_range.mpr ht,
          (wandbLog_mem_taskEvents model args t t).mpr ⟨rfl, hnw⟩⟩
  · rw [List.count_append, List.count_append]
    have h1 : (initEvents args).count Event.loggerWrite = 0 :=
      List.count_eq_zero.mpr (by simp [mem_initEvents_iff])
    have h2 : ((List.range ds.N_TASKS).flatMap
        (taskEvents model args)).count Event.loggerWrite = 0 := by
      refine List.count_eq_zero.mpr ?_
      intro hmem
      obtain ⟨u, _, hm⟩ := List.mem_flatMap.mp hmem
      exact (hng u).2.2.2.2.1 hm
    rw [h1, h2, count_tailEvents_loggerWrite]
    simp
  · intro hnw
    refine ⟨(if args.disable_log = false then [Event.loggerCreate] else []) ++
      (List.range ds.N_TASKS).flatMap (taskEvents model args) ++
      tailEvents args, ?_, ?_⟩
    · simp [initEvents, hnw, List.append_assoc]
    · intro hmem
      rcases List.mem_append.mp hmem with hmem | hmem
      · rcases List.mem_append.mp hmem with hmem | hmem
        · rcases List.mem_ite_nil_right.mp hmem with ⟨_, he⟩
          simp at he
        · obtain ⟨u, _, hm⟩ := List.mem_flatMap.mp hmem
          exact absurd hm (hng u).1
      · rcases (mem_tailEvents_iff args _).mp hmem with
          ⟨he, _⟩ | ⟨he, _⟩ | ⟨he, _⟩ | ⟨he, _⟩ <;> simp at he
  · intro hnw hmem
    rcases List.mem_append.mp hmem with hmem | hmem
    · rcases List.mem_append.mp hmem with hmem | hmem
      · rcases (mem_initEvents_iff args _).mp hmem with ⟨_, hn⟩ | ⟨he, _⟩
        · rw [hnw] at hn; exact absurd hn (by simp)
        · simp at he
      · obtain ⟨u, _, hm⟩ := List.mem_flatMap.mp hmem
        exact absurd hm (hng u).1
    · rcases (mem_tailEvents_iff args _).mp hmem with
        ⟨he, _⟩ | ⟨he, _⟩ | ⟨he, _⟩ | ⟨_, hn⟩
      · simp at he
      · simp at he
      · simp at he
      · rw [hnw] at hn; exact absurd hn (by simp)
  · rw [List.count_append, List.count_append]
    have h1 : (initEvents args).count Event.wandbFinish = 0 :=
      List.count_eq_zero.mpr (by simp [mem_initEvents_iff])
    have h2 : ((List.range ds.N_TASKS).flatMap
        (taskEvents model args)).count Event.wandbFinish = 0 := by
      refine List.count_eq_zero.mpr ?_
      intro hmem
      obtain ⟨u, _, hm⟩ := List.mem_flatMap.mp hmem
      exact (hng u).2.2.2.2.2.2 hm
    rw [h1, h2, count_tailEvents_wandbFinish]
    simp
  · intro hnw
    refine ⟨initEvents args ++
      (List.range ds.N_TASKS).flatMap (taskEvents model args) ++
      ((if args.disable_log = false ∧ args.ignore_other_metrics = false then
          [Event.addBwt, Event.addForgetting] else []) ++
        (if args.disable_log = false then
          [Event.loggerWrite] ++
            (if args.nowand = false then [Event.wandbLogDump] else [])
         else [])), ?_, ?_⟩
    · conv_lhs => rw [tailEvents]
      rw [hnw]
      simp [List.append_assoc]
    · intro hmem
      rcases List.mem_append.mp hmem with hmem | hmem
      · rcases List.mem_append.mp hmem with hmem | hmem
        · rcases (mem_initEvents_iff args _).mp hmem with ⟨he, _⟩ | ⟨he, _⟩ <;>
            simp at he
        · obtain ⟨u, _, hm⟩ := List.mem_flatMap.mp hmem
          exact absurd hm (hng u).2.2.2.2.2.2
      · rcases List.mem_append.mp hmem with hmem | hmem
        · rcases List.mem_ite_nil_right.mp hmem with ⟨_, he⟩
          simp at he
        · rcases List.mem_ite_nil_right.mp hmem with ⟨_, he⟩
          rcases List.mem_append.mp he with he | he
          · simp at he
          · rcases List.mem_ite_nil_right.mp he with ⟨_, he2⟩
            simp at he2
  · intro model' ds' args' oracle' hnw
    rw [train, if_pos ⟨hnw, rfl⟩]

/-- C5 (code bug): with `args.savecheck` and `args.disable_log` both set, the
checkpoint block's results pickle evaluates `logger.dump()` although `logger`
was never assigned, so the first task's checkpoint raises NameError instead of
pickling the accumulated results; `train` aborts. -/
theorem train_savecheck_logger_undefined :
    train sampleTrainModel sampleTrainDataset sampleBugArgs sampleOracle true =
      .error .nameError ∧
    taskStep sampleTrainModel sampleTrainDataset sampleBugArgs sampleOracle 0
      ⟨initEvents sampleBugArgs, [], []⟩ = .error .nameError :=
  ⟨by decide, by decide⟩

/-- Witness: the pre-task evaluation facts at task 1 on concrete inputs. -/
theorem train_pre_task_evaluation_witness :
    (1 ≤ 1 ∧ sampleArgs.ignore_other_metrics = false ∧
     1 ≤ samplePreState.results.length ∧
     1 ≤ samplePreState.results_mask_classes.length ∧
     taskStep sampleTrainModel sampleTrainDataset sampleArgs sampleOracle 1
       samplePreState = .ok samplePostState) ∧
    ((∃ pre post, samplePostState.events = samplePreState.events ++ pre ++
        [Event.evalLast 1] ++ post ∧ ∀ ep, Event.trainEpoch 1 ep ∉ pre) ∧
     (taskEvalPhase sampleArgs sampleTrainDataset sampleOracle 1
        samplePreState).results.getD 0 [] =
       samplePreState.results.getD 0 [] ++ (sampleOracle.evalLast 1).accs ∧
     (∀ j, j < 0 →
       (taskEvalPhase sampleArgs sampleTrainDataset sampleOracle 1
          samplePreState).results.getD j [] =
         samplePreState.results.getD j []) ∧
     (sampleTrainDataset.SETTING = "class-il" →
       (taskEvalPhase sampleArgs sampleTrainDataset sampleOracle 1
          samplePreState).results_mask_classes.getD 0 [] =
         samplePreState.results_mask_classes.getD 0 [] ++
           (sampleOracle.evalLast 1).accsMask) ∧
     (∀ j, j < 0 →
       (taskEvalPhase sampleArgs sampleTrainDataset sampleOracle 1
          samplePreState).results_mask_classes.getD j [] =
         samplePreState.results_mask_classes.getD j [])) :=
  ⟨⟨Nat.le_refl 1, rfl, by decide, by decide, by decide⟩,
   train_pre_task_evaluation sampleTrainModel sampleTrainDataset sampleArgs
     sampleOracle 1 samplePreState samplePostState (Nat.le_refl 1) rfl
     (by decide) (by decide) (by decide)⟩

/-- Witness: the sequential-processing facts on a concrete two-task run. -/
theorem train_sequential_tasks_witness :
    train sampleTrainModel sampleTrainDataset sampleArgs sampleOracle true =
      .ok sampleTrainState ∧
    (sampleTrainState.events = initEvents sampleArgs ++
        (List.range sampleTrainDataset.N_TASKS).flatMap
          (taskEvents sampleTrainModel sampleArgs) ++ tailEvents sampleArgs ∧
     sampleTrainState.results.length = sampleTrainDataset.N_TASKS ∧
     sampleTrainState.results_mask_classes.length =
       sampleTrainDataset.N_TASKS ∧
     (∀ t, t < sampleTrainDataset.N_TASKS → ∃ ext,
       sampleTrainState.results.getD t [] =
         (sampleOracle.evalAll t).accs ++ ext) ∧
     (∀ t, t < sampleTrainDataset.N_TASKS → ∃ ext,
       sampleTrainState.results_mask_classes.getD t [] =
         (sampleOracle.evalAll t).accsMask ++ ext)) :=
  ⟨by decide, train_sequential_tasks sampleTrainModel sampleTrainDataset
    sampleArgs sampleOracle true sampleTrainState (by decide)⟩

/-- Witness: the bwt/forgetting bookkeeping on a concrete two-task run. -/
theorem train_bwt_forgetting_once_witness :
    train sampleTrainModel sampleTrainDataset sampleArgs sampleOracle true =
      .ok sampleTrainState ∧
    (sampleTrainState.events = (initEvents sampleArgs ++
        (List.range sampleTrainDataset.N_TASKS).flatMap
          (taskEvents sampleTrainModel sampleArgs)) ++ tailEvents sampleArgs ∧
     (initEvents sampleArgs ++
        (List.range sampleTrainDataset.N_TASKS).flatMap
          (taskEvents sampleTrainModel sampleArgs)).count Event.addBwt = 0 ∧
     (initEvents sampleArgs ++
        (List.range sampleTrainDataset.N_TASKS).flatMap
          (taskEvents sampleTrainModel sampleArgs)).count
       Event.addForgetting = 0 ∧
     (tailEvents sampleArgs).count Event.addBwt =
       (if sampleArgs.disable_log = false ∧
           sampleArgs.ignore_other_metrics = false then 1 else 0) ∧
     (tailEvents sampleArgs).count Event.addForgetting =
       (if sampleArgs.disable_log = false ∧
           sampleArgs.ignore_other_metrics = false then 1 else 0)) :=
  ⟨by decide, train_bwt_forgetting_once sampleTrainModel sampleTrainDataset
    sampleArgs sampleOracle true sampleTrainState (by decide)⟩

/-- Witness: the logging behavior on a concrete two-task run with wandb and
the local logger both enabled. -/
theorem train_logging_behavior_witness :
    train sampleTrainModel sampleTrainDataset sampleArgs sampleOracle true =
      .ok sampleTrainState ∧
    ((Event.loggerCreate ∈ sampleTrainState.events ↔
        sampleArgs.disable_log = false) ∧
     (∀ t, t < sampleTrainDataset.N_TASKS →
       ((Event.loggerLog t ∈ sampleTrainState.events ↔
           sampleArgs.disable_log = false) ∧
        (Event.logFullacc t ∈ sampleTrainState.events ↔
           sampleArgs.disable_log = false) ∧
        (Event.wandbLog t ∈ sampleTrainState.events ↔
           sampleArgs.nowand = false))) ∧
     sampleTrainState.events.count Event.loggerWrite =
       (if sampleArgs.disable_log = false then 1 else 0) ∧
     (sampleArgs.nowand = false →
       ∃ l, sampleTrainState.events = Event.wandbInit :: l ∧
         Event.wandbInit ∉ l) ∧
     (sampleArgs.nowand = true → Event.wandbInit ∉ sampleTrainState.events) ∧
     sampleTrainState.events.count Event.wandbFinish =
       (if sampleArgs.nowand = false then 1 else 0) ∧
     (sampleArgs.nowand = false →
       ∃ l, sampleTrainState.events = l ++ [Event.wandbFinish] ∧
         Event.wandbFinish ∉ l) ∧
     (∀ (model' : TrainModel) (ds' : Dataset) (args' : Args)
         (oracle' : EvalOracle), args'.nowand = false →
       train model' ds' args' oracle' false = .error .assertionError)) :=
  ⟨by decide, train_logging_behavior sampleTrainModel sampleTrainDataset
    sampleArgs sampleOracle true sampleTrainState (by decide)⟩

end Training
